import Mathlib

/-!
Verification of the QuizNet attempt lifecycle and grading engine.

Shallow embedding of the quiz core of the repository:
  * `src/quiznet/quiz/models.py`  (Quiz, Question, Attempt, Attempt.grade,
    Attempt.is_submitted, Attempt.mark_submitted)
  * `src/quiznet/quiz/views.py`   (AttemptStartView.get, AttemptSaveView.patch,
    AttemptStatusView.get, AttemptSubmitView.post, AttemptUserResponseView.get)

Modelling decisions:
  * UUIDs and user identities are `String`s; timestamps are `Int`s (only their
    ordering matters to the code under study).
  * A JSON value stored as a selected option is either an integer or a string
    (`Val`); the save endpoint only ever stores integers 1..4, but `Attempt.responses`
    is a JSONField and `Attempt.grade` runs Python `int(...)` on whatever is stored.
  * Python `int(s)` on a string strips surrounding whitespace and accepts an
    optional sign followed by digits, raising `ValueError` otherwise; this is
    `pyInt`, returning `none` for the raising case.  (Digit-group underscores
    are not modelled; no theorem below depends on them.)
  * The database is a state record `St` of lists; `Quiz.objects.get` /
    `Attempt.objects.filter(...).first()` become `List.find?`, and `.save()`
    becomes replacement by primary key.  Each view is a function from the state
    and the request data to a response (`Except Err ...`) and the new state;
    a view that returns early without saving leaves the state unchanged.
-/

/-- A JSON scalar that can appear as a stored selected option. -/
inductive Val where
  | intV : Int → Val
  | strV : String → Val
deriving Repr, DecidableEq

/-- Strip leading and trailing whitespace from a character list
(Python `int` strips whitespace before parsing). -/
def trimWs (cs : List Char) : List Char :=
  ((cs.dropWhile Char.isWhitespace).reverse.dropWhile Char.isWhitespace).reverse

/-- Parse a nonempty all-digit character list as a natural number. -/
def parseDigits : List Char → Option Nat
  | [] => none
  | cs =>
    if cs.all Char.isDigit then
      some (cs.foldl (fun n c => n * 10 + (c.toNat - 48)) 0)
    else none

/-- Python `int(s)` for a string `s`: optional sign, then digits; `none` models
`ValueError`. -/
def pyStrToInt (s : String) : Option Int :=
  match trimWs s.toList with
  | '-' :: rest => (parseDigits rest).map (fun n => -(n : Int))
  | '+' :: rest => (parseDigits rest).map (fun n => (n : Int))
  | cs => (parseDigits cs).map (fun n => (n : Int))

/-- Python `int(selected)` on a stored JSON scalar; `none` models the raised
`ValueError`/`TypeError`. -/
def pyInt : Val → Option Int
  | .intV n => some n
  | .strV s => pyStrToInt s

/-- One entry of `Quiz.user_scores`: `{"user_id": ..., "score": ...}`. -/
structure ScoreEntry where
  user_id : String
  score : Int
deriving Repr, DecidableEq

/-- `quiz.models.Question`: primary key, owning quiz foreign key, text, four
options, and the correct option number (1-4). -/
structure Question where
  question_id : String
  quiz : String
  question_title : String
  option1 : String
  option2 : String
  option3 : String
  option4 : String
  answer : Nat
deriving Repr, DecidableEq

/-- `quiz.models.Quiz`: primary key, creator, result ledger `user_scores`,
title, activity flag, window timestamps, time limit, and question-id list. -/
structure Quiz where
  quiz_id : String
  creator : String
  user_scores : List ScoreEntry
  quiz_title : String
  is_active : Bool
  initiates_on : Int
  ends_on : Int
  time_limit_minutes : Nat
  questions_id : List String
deriving Repr, DecidableEq

/-- `quiz.models.Attempt`: primary key, user and quiz foreign keys, the
response map (a JSON object, insertion-ordered like a Python dict), and the
lifecycle fields. -/
structure Attempt where
  attempt_id : String
  user : String
  quiz : String
  responses : List (String × Val)
  started_at : Int
  submitted_at : Option Int
  score : Option Int
deriving Repr, DecidableEq

/-- `Attempt.is_submitted`: true iff `submitted_at` is set. -/
def Attempt.is_submitted (a : Attempt) : Bool :=
  a.submitted_at.isSome

/-- The record store: all quizzes, questions, attempts, and known user ids. -/
structure St where
  quizzes : List Quiz
  questions : List Question
  attempts : List Attempt
  users : List String
deriving Repr, DecidableEq

/-- `Quiz.objects.get(quiz_id=quiz_id)` (primary-key lookup). -/
def getQuiz (st : St) (quizId : String) : Option Quiz :=
  st.quizzes.find? (fun q => q.quiz_id == quizId)

/-- `Attempt.objects.filter(user=user, quiz=quiz).first()`. -/
def findAttempt (st : St) (user quizId : String) : Option Attempt :=
  st.attempts.find? (fun a => a.user == user && a.quiz == quizId)

/-- `Question.objects.get(question_id=qid, quiz=quiz)`; `none` models
`Question.DoesNotExist`.  The quiz filter means a question id belonging to a
different quiz never matches. -/
def findQuestion (qs : List Question) (quizId qid : String) : Option Question :=
  qs.find? (fun q => q.question_id == qid && q.quiz == quizId)

/-- Python dict assignment `responses[question_id] = selected`: overwrite in
place if the key exists (dict keys are unique, so at most one occurrence),
else append. -/
def upsert : List (String × Val) → String → Val → List (String × Val)
  | [], k, v => [(k, v)]
  | p :: rest, k, v => if p.1 == k then (k, v) :: rest else p :: upsert rest k v

/-- Python dict lookup `responses[k]` as an `Option`. -/
def lookupResp (m : List (String × Val)) (k : String) : Option Val :=
  (m.find? (fun p => p.1 == k)).map Prod.snd

/-- `attempt.save(...)`: replace the row with this primary key. -/
def updateAttempt (st : St) (i : String) (a : Attempt) : St :=
  { st with attempts := st.attempts.map (fun x => if x.attempt_id == i then a else x) }

/-- `quiz.save(...)`: replace the row with this primary key. -/
def updateQuiz (st : St) (q : Quiz) : St :=
  { st with quizzes := st.quizzes.map (fun x => if x.quiz_id == q.quiz_id then q else x) }

/-- The distinct error responses the five views can return. -/
inductive Err where
  /-- HTTP 404 "Quiz not found" -/
  | quizNotFound
  /-- HTTP 403 "Quiz is not active." -/
  | inactive
  /-- HTTP 403 "Quiz has ended." -/
  | ended
  /-- HTTP 403 "You have already submitted this quiz." -/
  | alreadySubmitted
  /-- HTTP 400 "attempt not found. Start attempt first." / "Attempt not found. Start the quiz first." -/
  | attemptNotFound
  /-- HTTP 404 "Attempt not found" (response view) -/
  | attemptNotFound404
  /-- HTTP 404 "No attempts found for this quiz" -/
  | noAttempts
  /-- HTTP 400 "Attempt not submitted yet" -/
  | notSubmitted
  /-- HTTP 403 "Not allowed" -/
  | forbidden
  /-- HTTP 404 "User not found" -/
  | userNotFound
  /-- HTTP 400 serializer rejection: selected_option outside 1..4 -/
  | invalidOption
  /-- An uncaught Python exception escaping the view (HTTP 500). -/
  | internalError
deriving Repr, DecidableEq

/-- The loop of `Attempt.grade`: walk the response map; skip entries whose
question id has no `Question` row in this quiz; on a found question run
`int(selected)` — `none` aborts the whole call (uncaught `ValueError`) — and
count the entries where the coerced value equals `q.answer`. -/
def gradeCount (qs : List Question) (quizId : String) :
    List (String × Val) → Except Unit Nat
  | [] => Except.ok 0
  | (qid, sel) :: rest =>
    match findQuestion qs quizId qid with
    | none => gradeCount qs quizId rest
    | some q =>
      match pyInt sel with
      | none => Except.error ()
      | some n =>
        (gradeCount qs quizId rest).map
          (fun c => if (q.answer : Int) == n then c + 1 else c)

/-- `Attempt.grade`: compute the count, then store it in `score` and save.
An error during the loop leaves the attempt unchanged (the assignment to
`self.score` is only reached after the loop). -/
def Attempt.grade (qs : List Question) (a : Attempt) : Except Unit (Nat × Attempt) :=
  match gradeCount qs a.quiz a.responses with
  | Except.error e => Except.error e
  | Except.ok c => Except.ok (c, { a with score := some (c : Int) })

/-- The status payload returned by `AttemptStatusView.get`. -/
structure StatusOut where
  is_active : Bool
  quiz_ended : Bool
  already_submitted : Bool
  now : Int
  ends_on : Int
deriving Repr, DecidableEq

/-- `AttemptStartView.get`: quiz lookup, `is_active` check, `ends_on` check
(in that order, with no write to `is_active`), then fetch-or-create the
attempt.  `freshId` models the `uuid4` primary key a newly created row gets. -/
def startAttempt (st : St) (user quizId : String) (now : Int) (freshId : String) :
    Except Err Attempt × St :=
  match getQuiz st quizId with
  | none => (Except.error Err.quizNotFound, st)
  | some quiz =>
    if !quiz.is_active then (Except.error Err.inactive, st)
    else if now > quiz.ends_on then (Except.error Err.ended, st)
    else
      match findAttempt st user quizId with
      | some a =>
        if a.is_submitted then (Except.error Err.alreadySubmitted, st)
        else (Except.ok a, st)
      | none =>
        let a : Attempt :=
          { attempt_id := freshId, user := user, quiz := quizId, responses := [],
            started_at := now, submitted_at := none, score := none }
        (Except.ok a, { st with attempts := st.attempts ++ [a] })

/-- `AttemptSaveView.patch`: the serializer first rejects a selected option
outside 1..4 (before the quiz lookup); then quiz lookup, attempt lookup,
submitted check, and the dict upsert followed by `save(update_fields=["responses"])`.
`questionId` is not checked against the quiz. -/
def saveAnswer (st : St) (user quizId questionId : String) (selected : Int) :
    Except Err Unit × St :=
  if selected < 1 || 4 < selected then (Except.error Err.invalidOption, st)
  else
    match getQuiz st quizId with
    | none => (Except.error Err.quizNotFound, st)
    | some _ =>
      match findAttempt st user quizId with
      | none => (Except.error Err.attemptNotFound, st)
      | some a =>
        if a.is_submitted then (Except.error Err.alreadySubmitted, st)
        else
          let a' := { a with responses := upsert a.responses questionId (Val.intV selected) }
          (Except.ok (), updateAttempt st a.attempt_id a')

/-- `AttemptStatusView.get`: report the live status; when `now > ends_on` and
the quiz is still active, flip `is_active` to false and save (the response
reads the flag after the flip). -/
def attemptStatus (st : St) (user quizId : String) (now : Int) :
    Except Err StatusOut × St :=
  match getQuiz st quizId with
  | none => (Except.error Err.quizNotFound, st)
  | some quiz =>
    let already :=
      match findAttempt st user quizId with
      | some a => a.is_submitted
      | none => false
    let quizEnded := now > quiz.ends_on
    let quiz' := if quizEnded && quiz.is_active then { quiz with is_active := false } else quiz
    let st' := if quizEnded && quiz.is_active then updateQuiz st quiz' else st
    (Except.ok { is_active := quiz'.is_active, quiz_ended := quizEnded,
                 already_submitted := already, now := now, ends_on := quiz.ends_on }, st')

/-- `AttemptSubmitView.post`: quiz lookup, attempt lookup, submitted check; then
`attempt.grade()` (which saves `score`), `mark_submitted()` (which saves
`submitted_at = now`), and the ledger append `quiz.user_scores.append(...)`
followed by `quiz.save(update_fields=["user_scores"])`.  A `ValueError` raised
inside `grade` escapes the view before any write. -/
def submitAttempt (st : St) (user quizId : String) (now : Int) :
    Except Err Attempt × St :=
  match getQuiz st quizId with
  | none => (Except.error Err.quizNotFound, st)
  | some quiz =>
    match findAttempt st user quizId with
    | none => (Except.error Err.attemptNotFound, st)
    | some a =>
      if a.is_submitted then (Except.error Err.alreadySubmitted, st)
      else
        match Attempt.grade st.questions a with
        | Except.error _ => (Except.error Err.internalError, st)
        | Except.ok (c, a1) =>
          let a2 := { a1 with submitted_at := some now }
          let quiz' := { quiz with
            user_scores := quiz.user_scores ++ [{ user_id := user, score := (c : Int) }] }
          (Except.ok a2, updateQuiz (updateAttempt st a.attempt_id a2) quiz')

/-- Result of `AttemptUserResponseView.get`: all attempts of the quiz, or one. -/
inductive RespOut where
  | all : List Attempt → RespOut
  | one : Attempt → RespOut
deriving Repr, DecidableEq

/-- The tail of `AttemptUserResponseView.get`: fetch the target user's attempt,
404 when absent, 400 when not yet submitted. -/
def fetchBreakdown (st : St) (target quizId : String) : Except Err RespOut :=
  match findAttempt st target quizId with
  | none => Except.error Err.attemptNotFound404
  | some a =>
    if !a.is_submitted then Except.error Err.notSubmitted
    else Except.ok (RespOut.one a)

/-- `AttemptUserResponseView.get` (read-only): with no `user_id` the creator
gets every attempt (404 when there are none) and anyone else gets their own
breakdown; with a `user_id` only the creator may proceed, and the target user
must exist. -/
def listResponses (st : St) (caller quizId : String) (userId : Option String) :
    Except Err RespOut :=
  match getQuiz st quizId with
  | none => Except.error Err.quizNotFound
  | some quiz =>
    match userId with
    | none =>
      if quiz.creator == caller then
        let atts := st.attempts.filter (fun a => a.quiz == quizId)
        if atts.isEmpty then Except.error Err.noAttempts
        else Except.ok (RespOut.all atts)
      else fetchBreakdown st caller quizId
    | some uid =>
      if quiz.creator != caller then Except.error Err.forbidden
      else if st.users.contains uid then fetchBreakdown st uid quizId
      else Except.error Err.userNotFound

/-! ## Specification-side definitions (for refinement comparisons) -/

/-- Written from the spec's words (§4.3 and claim C2): the number of response
entries whose question id has a question in this quiz's own question set and
whose selected option, coerced to an integer, equals that question's
correct-option index. -/
def specScore (qs : List Question) (quizId : String) (resp : List (String × Val)) : Nat :=
  (resp.filter (fun p =>
    match findQuestion qs quizId p.1 with
    | some q => pyInt p.2 == some ((q.answer : Int))
    | none => false)).length

/-! ## Concrete data (the spec's own scenario from section 8: two questions
with correct options 2 and 4, responses q1 -> 2 and q2 -> 3) -/

/-- Question "q1" of quiz "QA", correct option 2. -/
def qA1 : Question :=
  { question_id := "q1", quiz := "QA", question_title := "t1",
    option1 := "a", option2 := "b", option3 := "c", option4 := "d", answer := 2 }

/-- Question "q2" of quiz "QA", correct option 4. -/
def qA2 : Question :=
  { question_id := "q2", quiz := "QA", question_title := "t2",
    option1 := "a", option2 := "b", option3 := "c", option4 := "d", answer := 4 }

/-- Question "q3" of the other quiz "QB" (used to show cross-quiz ids never
match). -/
def qB1 : Question :=
  { question_id := "q3", quiz := "QB", question_title := "t3",
    option1 := "a", option2 := "b", option3 := "c", option4 := "d", answer := 1 }

/-- An active quiz "QA" by "carol" that ends at time 100. -/
def quizA : Quiz :=
  { quiz_id := "QA", creator := "carol", user_scores := [], quiz_title := "A",
    is_active := true, initiates_on := 0, ends_on := 100,
    time_limit_minutes := 30, questions_id := ["q1", "q2"] }

/-- An inactive quiz "QB" whose window ended at time 10. -/
def quizB : Quiz :=
  { quiz_id := "QB", creator := "carol", user_scores := [], quiz_title := "B",
    is_active := false, initiates_on := 0, ends_on := 10,
    time_limit_minutes := 30, questions_id := ["q3"] }

/-- A still-active quiz "QC" whose window ended at time 10. -/
def quizC : Quiz :=
  { quiz_id := "QC", creator := "carol", user_scores := [], quiz_title := "C",
    is_active := true, initiates_on := 0, ends_on := 10,
    time_limit_minutes := 30, questions_id := [] }

/-- Alice's open attempt on "QA" answering q1 -> 2 (right) and q2 -> 3 (wrong). -/
def attOpen : Attempt :=
  { attempt_id := "at1", user := "alice", quiz := "QA",
    responses := [("q1", Val.intV 2), ("q2", Val.intV 3)],
    started_at := 1, submitted_at := none, score := none }

/-- Bob's already-submitted attempt on "QA". -/
def attSub : Attempt :=
  { attempt_id := "at2", user := "bob", quiz := "QA",
    responses := [], started_at := 1, submitted_at := some 5, score := some 0 }

/-- The main concrete store. -/
def stMain : St :=
  { quizzes := [quizA, quizB, quizC], questions := [qA1, qA2, qB1],
    attempts := [attOpen, attSub], users := ["carol", "alice", "bob", "dora"] }

/-- An inactive, long-ended quiz "QD". -/
def quizD : Quiz :=
  { quiz_id := "QD", creator := "carol", user_scores := [], quiz_title := "D",
    is_active := false, initiates_on := 0, ends_on := 10,
    time_limit_minutes := 30, questions_id := [] }

/-- Alice's open attempt on "QD", answering only an unknown question id. -/
def attD : Attempt :=
  { attempt_id := "at3", user := "alice", quiz := "QD",
    responses := [("q9", Val.intV 1)], started_at := 1,
    submitted_at := none, score := none }

/-- A store whose only quiz is inactive and past its window but carries an
open attempt. -/
def stWin : St :=
  { quizzes := [quizD], questions := [], attempts := [attD],
    users := ["carol", "alice"] }

/-! ## Generic store lemmas -/

/-- Replacing, by a condition that holds at the found element, every selected
element with a new element that itself satisfies the search predicate moves
`find?` to the new element. -/
theorem find?_map_replace {α : Type} (p c : α → Bool) (l : List α) (a a' : α)
    (h : l.find? p = some a) (hp : p a' = true) (hc : c a = true) :
    (l.map (fun x => if c x then a' else x)).find? p = some a' := by
  induction l with
  | nil => simp at h
  | cons x xs ih =>
    by_cases hx : p x
    · rw [List.find?_cons_of_pos _ hx] at h
      injection h with h
      subst h
      simp only [List.map_cons, hc, if_true, List.find?_cons_of_pos _ hp]
    · rw [List.find?_cons_of_neg _ (by simpa using hx)] at h
      simp only [List.map_cons]
      by_cases hcx : c x
      · simp only [hcx, if_true, List.find?_cons_of_pos _ hp]
      · simp only [hcx, if_false, Bool.false_eq_true]
        rw [List.find?_cons_of_neg _ (by simpa using hx)]
        exact ih h

/-- `findAttempt` returns an attempt of the requested user and quiz. -/
theorem findAttempt_fields {st : St} {user quizId : String} {a : Attempt}
    (h : findAttempt st user quizId = some a) : a.user = user ∧ a.quiz = quizId := by
  have := List.find?_some h
  simpa [Bool.and_eq_true, beq_iff_eq] using this

/-- Saving an attempt back under its own primary key makes `findAttempt` return
the saved row, provided the row still belongs to the same user and quiz. -/
theorem findAttempt_updateAttempt {st : St} {user quizId : String} {a a' : Attempt}
    (h : findAttempt st user quizId = some a)
    (hu : a'.user = user) (hq : a'.quiz = quizId) :
    findAttempt (updateAttempt st a.attempt_id a') user quizId = some a' := by
  unfold findAttempt updateAttempt at *
  exact find?_map_replace _ _ _ _ _ h (by simp [hu, hq]) (by simp)

/-- Saving a quiz back under its (unchanged) primary key makes `getQuiz` return
the saved row. -/
theorem getQuiz_updateQuiz {st : St} {quizId : String} {quiz q' : Quiz}
    (h : getQuiz st quizId = some quiz) (hid : q'.quiz_id = quiz.quiz_id) :
    getQuiz (updateQuiz st q') quizId = some q' := by
  unfold getQuiz updateQuiz at *
  have hp : (q'.quiz_id == quizId) = true := by
    have := List.find?_some h
    simp only [beq_iff_eq] at this ⊢
    rw [hid, this]
  exact find?_map_replace _ _ _ _ _ h hp (by simp [hid])

/-- Saving an attempt does not touch the quiz table. -/
theorem getQuiz_updateAttempt (st : St) (i : String) (a : Attempt) (quizId : String) :
    getQuiz (updateAttempt st i a) quizId = getQuiz st quizId := rfl

/-- Saving a quiz does not touch the attempt table. -/
theorem findAttempt_updateQuiz (st : St) (q : Quiz) (user quizId : String) :
    findAttempt (updateQuiz st q) user quizId = findAttempt st user quizId := rfl

/-! ## Grading lemmas -/

/-- Dict lookups after an upsert: the written key now maps to the new value. -/
theorem lookupResp_upsert_self (m : List (String × Val)) (k : String) (v : Val) :
    lookupResp (upsert m k v) k = some v := by
  induction m with
  | nil => simp [upsert, lookupResp, List.find?]
  | cons p rest ih =>
    by_cases hp : p.1 = k
    · simp [upsert, hp, lookupResp, List.find?]
    · simp only [upsert, lookupResp] at *
      rw [if_neg (by simpa using hp)]
      rw [List.find?_cons_of_neg _ (by simpa using hp)]
      exact ih

/-- Dict lookups after an upsert: every other key is untouched. -/
theorem lookupResp_upsert_other (m : List (String × Val)) (k k' : String) (v : Val)
    (hne : k' ≠ k) : lookupResp (upsert m k v) k' = lookupResp m k' := by
  induction m with
  | nil =>
    simp only [upsert, lookupResp]
    rw [List.find?_cons_of_neg _ (by simpa using Ne.symm hne)]
  | cons p rest ih =>
    by_cases hp : p.1 = k
    · simp only [upsert, lookupResp]
      rw [if_pos (by simpa using hp)]
      rw [List.find?_cons_of_neg _ (by simpa using Ne.symm hne)]
      rw [List.find?_cons_of_neg _ (by simp only [hp, beq_iff_eq]; exact Ne.symm hne)]
    · simp only [upsert, lookupResp] at *
      rw [if_neg (by simpa using hp)]
      by_cases hpk : p.1 = k'
      · rw [List.find?_cons_of_pos _ (by simpa using hpk),
            List.find?_cons_of_pos _ (by simpa using hpk)]
      · rw [List.find?_cons_of_neg _ (by simpa using hpk),
            List.find?_cons_of_neg _ (by simpa using hpk)]
        exact ih

/-- Whenever the grading loop completes, the returned score is exactly the
spec-side match count. -/
theorem gradeCount_ok_spec (qs : List Question) (quizId : String) :
    ∀ (resp : List (String × Val)) (c : Nat),
      gradeCount qs quizId resp = Except.ok c → c = specScore qs quizId resp := by
  intro resp
  induction resp with
  | nil =>
    intro c h
    simp only [gradeCount, Except.ok.injEq] at h
    simp [specScore, ← h]
  | cons p rest ih =>
    intro c h
    obtain ⟨qid, sel⟩ := p
    simp only [gradeCount] at h
    cases hfq : findQuestion qs quizId qid with
    | none =>
      rw [hfq] at h
      rw [ih c h]
      simp [specScore, List.filter_cons, hfq]
    | some q =>
      rw [hfq] at h
      cases hpi : pyInt sel with
      | none => rw [hpi] at h; simp at h
      | some n =>
        rw [hpi] at h
        cases hg : gradeCount qs quizId rest with
        | error e => rw [hg] at h; simp [Except.map] at h
        | ok c0 =>
          rw [hg] at h
          simp only [Except.map, Except.ok.injEq] at h
          rw [← h, ih c0 hg]
          simp only [specScore, List.filter_cons, hfq, hpi]
          rcases eq_or_ne ((q.answer : Int)) n with heq | heq
          · simp [heq]
          · simp [heq, Ne.symm heq]

/-- The grading loop completes (does not raise) as soon as every answered
question that belongs to the quiz carries an integer-coercible selected value;
the result is then the spec-side match count. -/
theorem gradeCount_total (qs : List Question) (quizId : String) :
    ∀ resp : List (String × Val),
      (∀ p ∈ resp, findQuestion qs quizId p.1 ≠ none → (pyInt p.2).isSome) →
      gradeCount qs quizId resp = Except.ok (specScore qs quizId resp) := by
  intro resp
  induction resp with
  | nil => intro _; simp [gradeCount, specScore]
  | cons p rest ih =>
    intro hc
    obtain ⟨qid, sel⟩ := p
    have hrest : ∀ p ∈ rest, findQuestion qs quizId p.1 ≠ none → (pyInt p.2).isSome :=
      fun x hx => hc x (List.mem_cons_of_mem _ hx)
    simp only [gradeCount]
    cases hfq : findQuestion qs quizId qid with
    | none =>
      rw [ih hrest]
      simp [specScore, List.filter_cons, hfq]
    | some q =>
      have hsome : (pyInt sel).isSome :=
        hc (qid, sel) (List.mem_cons_self _ _) (by rw [hfq]; simp)
      obtain ⟨n, hn⟩ := Option.isSome_iff_exists.mp hsome
      rw [hn, ih hrest]
      simp only [Except.map, specScore, List.filter_cons, hfq, hn, Except.ok.injEq]
      rcases eq_or_ne ((q.answer : Int)) n with heq | heq
      · simp [heq]
      · simp [heq, Ne.symm heq]

/-! ## Submission lemmas -/

/-- Unfolding of `AttemptSubmitView.post` on the success path: the existing,
not-yet-submitted attempt is graded, stamped, and saved, and one ledger entry
is appended to the quiz row. -/
theorem submitAttempt_success (st : St) (user quizId : String) (now : Int)
    (quiz : Quiz) (a : Attempt) (c : Nat)
    (hq : getQuiz st quizId = some quiz)
    (ha : findAttempt st user quizId = some a)
    (hs : a.is_submitted = false)
    (hg : gradeCount st.questions a.quiz a.responses = Except.ok c) :
    submitAttempt st user quizId now =
      (Except.ok { a with score := some ((c : Int)), submitted_at := some now },
       updateQuiz (updateAttempt st a.attempt_id
           { a with score := some ((c : Int)), submitted_at := some now })
         { quiz with user_scores :=
             quiz.user_scores ++ [{ user_id := user, score := (c : Int) }] }) := by
  unfold submitAttempt
  rw [hq, ha]
  simp only [hs, Bool.false_eq_true, if_false, Attempt.grade, hg]

/-- After the success path, looking the quiz up again returns the row with the
single appended ledger entry, and the attempt row is the submitted one. -/
theorem submitAttempt_post_state (st : St) (user quizId : String) (now : Int)
    (quiz : Quiz) (a : Attempt) (c : Nat)
    (hq : getQuiz st quizId = some quiz)
    (ha : findAttempt st user quizId = some a)
    (hs : a.is_submitted = false)
    (hg : gradeCount st.questions a.quiz a.responses = Except.ok c) :
    getQuiz (submitAttempt st user quizId now).2 quizId =
      some { quiz with user_scores :=
               quiz.user_scores ++ [{ user_id := user, score := (c : Int) }] } ∧
    findAttempt (submitAttempt st user quizId now).2 user quizId =
      some { a with score := some ((c : Int)), submitted_at := some now } := by
  obtain ⟨hu, hz⟩ := findAttempt_fields ha
  rw [submitAttempt_success st user quizId now quiz a c hq ha hs hg]
  constructor
  · have hq2 : getQuiz (updateAttempt st a.attempt_id
        { a with score := some ((c : Int)), submitted_at := some now }) quizId = some quiz := by
      rw [getQuiz_updateAttempt]
      exact hq
    exact getQuiz_updateQuiz hq2 rfl
  · rw [findAttempt_updateQuiz]
    exact findAttempt_updateAttempt ha hu hz

/-! ## Attempt-table invariants -/

/-- At most one attempt row per (user, quiz) pair. -/
def atMostOnePerPair (l : List Attempt) : Prop :=
  l.Pairwise (fun a b => ¬(a.user = b.user ∧ a.quiz = b.quiz))

/-- A well-formed attempt table: primary keys are unique and the (user, quiz)
pairs are unique. -/
def wfAttempts (l : List Attempt) : Prop :=
  (l.map Attempt.attempt_id).Nodup ∧ atMostOnePerPair l

/-- Saving an existing row back (same key, same user, same quiz) preserves the
attempt-table invariants. -/
theorem wfAttempts_map_replace (l : List Attempt) (a a' : Attempt)
    (hmem : a ∈ l)
    (hid : a'.attempt_id = a.attempt_id) (hu : a'.user = a.user) (hz : a'.quiz = a.quiz)
    (hwf : wfAttempts l) :
    wfAttempts (l.map (fun x => if x.attempt_id == a.attempt_id then a' else x)) := by
  obtain ⟨hnd, hpw⟩ := hwf
  have hinj := List.inj_on_of_nodup_map hnd
  have hpt : ∀ x ∈ l,
      ((if x.attempt_id == a.attempt_id then a' else x).attempt_id = x.attempt_id ∧
       (if x.attempt_id == a.attempt_id then a' else x).user = x.user ∧
       (if x.attempt_id == a.attempt_id then a' else x).quiz = x.quiz) := by
    intro x hx
    by_cases hxa : x.attempt_id = a.attempt_id
    · have hxeq : x = a := hinj hx hmem hxa
      subst hxeq
      simp [hid, hu, hz]
    · simp [hxa]
  constructor
  · rw [List.map_map]
    have hmc : l.map (Attempt.attempt_id ∘ fun x => if x.attempt_id == a.attempt_id then a' else x)
        = l.map Attempt.attempt_id :=
      List.map_congr_left (fun x hx => (hpt x hx).1)
    rw [hmc]
    exact hnd
  · rw [atMostOnePerPair, List.pairwise_map]
    refine List.Pairwise.imp_of_mem ?_ hpw
    intro b d hb hd hR
    obtain ⟨_, hb2, hb3⟩ := hpt b hb
    obtain ⟨_, hd2, hd3⟩ := hpt d hd
    rw [hb2, hb3, hd2, hd3]
    exact hR

/-- Appending a row for a (user, quiz) pair with no existing row, under a fresh
primary key, preserves the attempt-table invariants. -/
theorem wfAttempts_append_new (l : List Attempt) (a : Attempt)
    (hfresh : a.attempt_id ∉ l.map Attempt.attempt_id)
    (hnone : l.find? (fun x => x.user == a.user && x.quiz == a.quiz) = none)
    (hwf : wfAttempts l) : wfAttempts (l ++ [a]) := by
  obtain ⟨hnd, hpw⟩ := hwf
  constructor
  · rw [List.map_append]
    simp only [List.map_cons, List.map_nil]
    rw [List.nodup_append]
    refine ⟨hnd, List.nodup_singleton _, ?_⟩
    intro i hi hia
    simp only [List.mem_singleton] at hia
    subst hia
    exact hfresh hi
  · rw [atMostOnePerPair, List.pairwise_append]
    refine ⟨hpw, List.pairwise_singleton _ _, ?_⟩
    intro x hx b hb
    have hbx : b = a := by simpa using hb
    subst hbx
    have := List.find?_eq_none.mp hnone x hx
    simp only [Bool.and_eq_true, beq_iff_eq] at this
    exact fun hcon => this ⟨hcon.1, hcon.2⟩

/-! ## Active-flag monotonicity -/

/-- Spec-side relation for claim C4: each quiz row keeps its id and its
`is_active` flag never rises from false back to true. -/
def activeMono (l l' : List Quiz) : Prop :=
  List.Forall₂ (fun x y => y.quiz_id = x.quiz_id ∧ (y.is_active = true → x.is_active = true))
    l l'

/-- A state change that leaves the quiz table alone is monotone. -/
theorem activeMono_refl (l : List Quiz) : activeMono l l := by
  rw [activeMono, List.forall₂_same]
  exact fun x _ => ⟨rfl, id⟩

/-- A pointwise rewrite of the quiz table that keeps ids and never raises the
flag is monotone. -/
theorem activeMono_map (l : List Quiz) (f : Quiz → Quiz)
    (h : ∀ x ∈ l, (f x).quiz_id = x.quiz_id ∧ ((f x).is_active = true → x.is_active = true)) :
    activeMono l (l.map f) := by
  rw [activeMono, List.forall₂_map_right_iff, List.forall₂_same]
  exact h

/-! ## Frame lemmas for the operations -/

/-- `AttemptStartView` never writes to the quiz table (in particular it never
performs the lazy deactivation). -/
theorem startAttempt_quizzes (st : St) (u q : String) (now : Int) (fid : String) :
    (startAttempt st u q now fid).2.quizzes = st.quizzes := by
  unfold startAttempt
  repeat' split
  all_goals rfl

/-- `AttemptSaveView` never writes to the quiz table. -/
theorem saveAnswer_quizzes (st : St) (u q qid : String) (sel : Int) :
    (saveAnswer st u q qid sel).2.quizzes = st.quizzes := by
  unfold saveAnswer
  repeat' split
  all_goals rfl

/-- `AttemptStatusView` never writes to the attempt table. -/
theorem attemptStatus_attempts (st : St) (u q : String) (now : Int) :
    (attemptStatus st u q now).2.attempts = st.attempts := by
  unfold attemptStatus
  cases hq : getQuiz st q with
  | none => rfl
  | some quiz =>
    simp only
    repeat' split
    all_goals rfl

/-- `AttemptStatusView` never raises the `is_active` flag of any quiz. -/
theorem attemptStatus_activeMono (st : St) (u q : String) (now : Int) :
    activeMono st.quizzes (attemptStatus st u q now).2.quizzes := by
  unfold attemptStatus
  cases hq : getQuiz st q with
  | none => exact activeMono_refl _
  | some quiz =>
    simp only
    split
    · simp only [updateQuiz]
      refine activeMono_map _ _ ?_
      intro x hx
      by_cases hxq : x.quiz_id = quiz.quiz_id
      · simp [hxq]
      · simp [hxq]
    · exact activeMono_refl _

/-- `AttemptStartView` never raises the `is_active` flag of any quiz. -/
theorem startAttempt_activeMono (st : St) (u q : String) (now : Int) (fid : String) :
    activeMono st.quizzes (startAttempt st u q now fid).2.quizzes := by
  rw [startAttempt_quizzes]
  exact activeMono_refl _

/-- `AttemptSaveView` never raises the `is_active` flag of any quiz. -/
theorem saveAnswer_activeMono (st : St) (u q qid : String) (sel : Int) :
    activeMono st.quizzes (saveAnswer st u q qid sel).2.quizzes := by
  rw [saveAnswer_quizzes]
  exact activeMono_refl _

/-- `AttemptSubmitView` writes only the ledger of the quiz row it fetched: when
quiz primary keys are unique it never changes any quiz's `is_active` flag. -/
theorem submitAttempt_activeMono (st : St) (u q : String) (now : Int)
    (hnd : (st.quizzes.map Quiz.quiz_id).Nodup) :
    activeMono st.quizzes (submitAttempt st u q now).2.quizzes := by
  unfold submitAttempt
  cases hq : getQuiz st q with
  | none => exact activeMono_refl _
  | some quiz =>
    simp only
    cases ha : findAttempt st u q with
    | none => exact activeMono_refl _
    | some a =>
      simp only
      by_cases hs : a.is_submitted
      · rw [if_pos hs]
        exact activeMono_refl _
      · rw [if_neg hs]
        cases hg : Attempt.grade st.questions a with
        | error e => exact activeMono_refl _
        | ok p =>
          obtain ⟨c, a1⟩ := p
          simp only [updateQuiz, updateAttempt]
          refine activeMono_map _ _ ?_
          intro x hx
          have hqmem : quiz ∈ st.quizzes := List.mem_of_find?_eq_some hq
          by_cases hxq : (x.quiz_id == quiz.quiz_id) = true
          · simp only [beq_iff_eq] at hxq
            have hxeq : x = quiz := List.inj_on_of_nodup_map hnd hx hqmem hxq
            subst hxeq
            simp
          · rw [if_neg (by simpa using hxq)]
            exact ⟨rfl, id⟩

/-! ## Claim theorems -/

/-- Claim C2: whenever grading an attempt produces a result, that result equals
the number of response entries whose question id has a question in this quiz's
own question set (a question id of a different quiz never matches, and entries
with an unknown id are skipped) and whose selected option, coerced to an
integer, equals that question's correct-option index; unanswered questions
contribute nothing (they are simply not entries of the map). -/
theorem C2_grade_is_match_count (qs : List Question) (quizId : String)
    (resp : List (String × Val)) (c : Nat)
    (hg : gradeCount qs quizId resp = Except.ok c) :
    c = specScore qs quizId resp :=
  gradeCount_ok_spec qs quizId resp c hg

/-- Witness for C2 on concrete data: q1 answered right, q2 answered wrong, q3
matches only a question of a different quiz (so it is skipped), and "zz" is an
unknown id (also skipped): the score is 1. -/
theorem C2_witness :
    gradeCount [qA1, qA2, qB1] "QA"
      [("q1", Val.intV 2), ("q2", Val.intV 3), ("q3", Val.intV 1), ("zz", Val.intV 4)] =
      Except.ok 1 ∧
    1 = specScore [qA1, qA2, qB1] "QA"
      [("q1", Val.intV 2), ("q2", Val.intV 3), ("q3", Val.intV 1), ("zz", Val.intV 4)] :=
  ⟨rfl, C2_grade_is_match_count [qA1, qA2, qB1] "QA"
    [("q1", Val.intV 2), ("q2", Val.intV 3), ("q3", Val.intV 1), ("zz", Val.intV 4)] 1 rfl⟩

/-- Counterexample to claim C3 as stated: a non-numeric selected value for a
question that does belong to the quiz makes the grading loop raise
(`int("abc")` raises `ValueError`), rather than counting as incorrect. -/
theorem C3_counterexample :
    gradeCount [qA1] "QA" [("q1", Val.strV "abc")] = Except.error () := rfl

/-- Claim C3 (amended): grading never errors provided every selected value for
a question belonging to the quiz is integer-coercible; in particular a numeric
value outside 1..4 does not raise and counts as incorrect (it can never equal
the correct-option index, which lies in 1..4); but a non-coercible (non-numeric)
selected value makes grading raise. -/
theorem C3_grade_total_unless_nonnumeric (qs : List Question) (quizId : String)
    (resp : List (String × Val))
    (hc : ∀ p ∈ resp, findQuestion qs quizId p.1 ≠ none → (pyInt p.2).isSome) :
    gradeCount qs quizId resp = Except.ok (specScore qs quizId resp) ∧
    ∀ p ∈ resp, ∀ q, findQuestion qs quizId p.1 = some q →
      1 ≤ q.answer → q.answer ≤ 4 →
      ∀ n, pyInt p.2 = some n → (n < 1 ∨ 4 < n) →
      (pyInt p.2 == some ((q.answer : Int))) = false := by
  refine ⟨gradeCount_total qs quizId resp hc, ?_⟩
  intro p _ q _ h1 h4 n hn hout
  rw [hn]
  have hne : n ≠ ((q.answer : Int)) := by
    intro h
    subst h
    rcases hout with h | h
    · omega
    · omega
  simp [hne]

/-- Witness for C3 (amended): the out-of-range numeric value 9 neither raises
nor counts as correct. -/
theorem C3_witness :
    gradeCount [qA1] "QA" [("q1", Val.intV 9)] = Except.ok 0 ∧
    (pyInt (Val.intV 9) == some ((qA1.answer : Int))) = false := by
  have h := C3_grade_total_unless_nonnumeric [qA1] "QA" [("q1", Val.intV 9)] (by decide)
  constructor
  · rw [h.1]
    rfl
  · exact h.2 ("q1", Val.intV 9) (by decide) qA1 (by decide) (by decide) (by decide)
      9 (by decide) (by decide)

/-- Counterexample to claim C5 as stated: `Attempt.grade` is not a pure
function of the response map and question set — it writes the computed score
into the attempt's `score` field (and saves it): here the field goes from
`none` to `some 1`. -/
theorem C5_counterexample :
    Attempt.grade stMain.questions attOpen =
      Except.ok (1, { attOpen with score := some 1 }) ∧
    attOpen.score = none ∧
    ({ attOpen with score := some 1 } : Attempt).score ≠ attOpen.score := by
  refine ⟨rfl, rfl, by decide⟩

/-- Claim C5 (amended): the score `Attempt.grade` computes depends only on the
response map and the question set (it is `gradeCount`), and grading leaves the
responses, `submitted_at`, the identity fields, and the quiz table unchanged —
but it does write the computed score into the attempt's `score` field and
persists it. -/
theorem C5_grade_frame (qs : List Question) (a : Attempt) (c : Nat) (a' : Attempt)
    (h : Attempt.grade qs a = Except.ok (c, a')) :
    a'.score = some ((c : Int)) ∧ a'.responses = a.responses ∧
    a'.submitted_at = a.submitted_at ∧ a'.attempt_id = a.attempt_id ∧
    a'.user = a.user ∧ a'.quiz = a.quiz ∧ a'.started_at = a.started_at ∧
    gradeCount qs a.quiz a.responses = Except.ok c := by
  unfold Attempt.grade at h
  cases hg : gradeCount qs a.quiz a.responses with
  | error e =>
    rw [hg] at h
    exact absurd h (by simp)
  | ok c0 =>
    rw [hg] at h
    simp only [Except.ok.injEq, Prod.mk.injEq] at h
    obtain ⟨hc, ha'⟩ := h
    subst hc
    subst ha'
    exact ⟨rfl, rfl, rfl, rfl, rfl, rfl, rfl, rfl⟩

/-- Witness for C5 (amended) on concrete data. -/
theorem C5_witness :
    ({ attOpen with score := some 1 } : Attempt).responses = attOpen.responses ∧
    ({ attOpen with score := some 1 } : Attempt).submitted_at = attOpen.submitted_at ∧
    gradeCount stMain.questions attOpen.quiz attOpen.responses = Except.ok 1 := by
  have h := C5_grade_frame stMain.questions attOpen 1 { attOpen with score := some 1 } rfl
  exact ⟨h.2.1, h.2.2.1, h.2.2.2.2.2.2.2⟩

/-- Claim C1: for an existing, not-yet-submitted attempt (whose stored selected
values are integers, as the save endpoint guarantees), `submitAttempt` succeeds
exactly once: it sets the attempt's score and `submitted_at`, appends exactly
one `{user_id, score}` entry to the quiz's result ledger, and every subsequent
`submitAttempt` call for that attempt fails with `AlreadySubmitted` and leaves
the state — in particular the ledger — unchanged. -/
theorem C1_submit_exactly_once (st : St) (user quizId : String) (now : Int)
    (quiz : Quiz) (a : Attempt)
    (hq : getQuiz st quizId = some quiz)
    (ha : findAttempt st user quizId = some a)
    (hs : a.is_submitted = false)
    (hvals : ∀ p ∈ a.responses, ∃ n, p.2 = Val.intV n) :
    ∃ st',
      submitAttempt st user quizId now =
        (Except.ok { a with
            score := some ((specScore st.questions a.quiz a.responses : Int)),
            submitted_at := some now }, st') ∧
      getQuiz st' quizId =
        some { quiz with user_scores := quiz.user_scores ++
          [{ user_id := user,
             score := (specScore st.questions a.quiz a.responses : Int) }] } ∧
      (∀ now2, submitAttempt st' user quizId now2 =
        (Except.error Err.alreadySubmitted, st')) := by
  have hg : gradeCount st.questions a.quiz a.responses =
      Except.ok (specScore st.questions a.quiz a.responses) := by
    refine gradeCount_total st.questions a.quiz a.responses ?_
    intro p hp _
    obtain ⟨n, hn⟩ := hvals p hp
    rw [hn]
    rfl
  have hrun := submitAttempt_success st user quizId now quiz a _ hq ha hs hg
  obtain ⟨hpost1, hpost2⟩ := submitAttempt_post_state st user quizId now quiz a _ hq ha hs hg
  rw [hrun] at hpost1 hpost2
  simp only at hpost1 hpost2
  refine ⟨_, hrun, hpost1, ?_⟩
  intro now2
  unfold submitAttempt
  rw [hpost1, hpost2]
  simp [Attempt.is_submitted]

/-- Witness for C1: Alice's open attempt on quiz "QA" (the spec's scenario)
submits with score 1, the ledger gains exactly that entry, and any further
submit call fails with `AlreadySubmitted`. -/
theorem C1_witness :
    ∃ st',
      submitAttempt stMain "alice" "QA" 30 =
        (Except.ok { attOpen with score := some 1, submitted_at := some 30 }, st') ∧
      getQuiz st' "QA" =
        some { quizA with user_scores := quizA.user_scores ++
          [{ user_id := "alice", score := 1 }] } ∧
      (∀ now2, submitAttempt st' "alice" "QA" now2 =
        (Except.error Err.alreadySubmitted, st')) :=
  C1_submit_exactly_once stMain "alice" "QA" 30 quizA attOpen rfl rfl rfl
    (by
      intro p hp
      simp only [attOpen, List.mem_cons, List.not_mem_nil, or_false] at hp
      rcases hp with h | h
      · exact ⟨2, by rw [h]⟩
      · exact ⟨3, by rw [h]⟩)

/-- Claim C10: `submitAttempt` performs no quiz-window check: with an existing,
not-yet-submitted attempt (holding integer selections), it succeeds — grading
the attempt and appending to the quiz's ledger — even when the quiz's
`is_active` flag is false or the quiz has ended (`now > ends_on`). -/
theorem C10_submit_ignores_window (st : St) (user quizId : String) (now : Int)
    (quiz : Quiz) (a : Attempt)
    (hq : getQuiz st quizId = some quiz)
    (ha : findAttempt st user quizId = some a)
    (hs : a.is_submitted = false)
    (hvals : ∀ p ∈ a.responses, ∃ n, p.2 = Val.intV n)
    (_hwin : quiz.is_active = false ∨ now > quiz.ends_on) :
    ∃ st',
      submitAttempt st user quizId now =
        (Except.ok { a with
            score := some ((specScore st.questions a.quiz a.responses : Int)),
            submitted_at := some now }, st') ∧
      getQuiz st' quizId =
        some { quiz with user_scores := quiz.user_scores ++
          [{ user_id := user,
             score := (specScore st.questions a.quiz a.responses : Int) }] } := by
  have hg : gradeCount st.questions a.quiz a.responses =
      Except.ok (specScore st.questions a.quiz a.responses) := by
    refine gradeCount_total st.questions a.quiz a.responses ?_
    intro p hp _
    obtain ⟨n, hn⟩ := hvals p hp
    rw [hn]
    rfl
  have hrun := submitAttempt_success st user quizId now quiz a _ hq ha hs hg
  obtain ⟨hpost1, _⟩ := submitAttempt_post_state st user quizId now quiz a _ hq ha hs hg
  rw [hrun] at hpost1
  simp only at hpost1
  exact ⟨_, hrun, hpost1⟩

/-- Witness for C10: quiz "QD" is inactive and long past its window, yet
Alice's open attempt submits successfully and the ledger gains the entry. -/
theorem C10_witness :
    ∃ st',
      submitAttempt stWin "alice" "QD" 50 =
        (Except.ok { attD with score := some 0, submitted_at := some 50 }, st') ∧
      getQuiz st' "QD" =
        some { quizD with user_scores := quizD.user_scores ++
          [{ user_id := "alice", score := 0 }] } :=
  C10_submit_ignores_window stWin "alice" "QD" 50 quizD attD rfl rfl rfl
    (by
      intro p hp
      simp only [attD, List.mem_cons, List.not_mem_nil, or_false] at hp
      exact ⟨1, by rw [hp]⟩)
    (Or.inl rfl)

/-- `AttemptStatusView` on an ended, still-active quiz: reports ended, flips
`is_active` to false and saves the quiz row. -/
theorem attemptStatus_ended_active (st : St) (user quizId : String) (now : Int)
    (quiz : Quiz)
    (hq : getQuiz st quizId = some quiz) (hend : now > quiz.ends_on)
    (hact : quiz.is_active = true) :
    attemptStatus st user quizId now =
      (Except.ok { is_active := false, quiz_ended := true,
                   already_submitted := (match findAttempt st user quizId with
                                         | some a => a.is_submitted
                                         | none => false),
                   now := now, ends_on := quiz.ends_on },
       updateQuiz st { quiz with is_active := false }) := by
  unfold attemptStatus
  rw [hq]
  simp only [hact, decide_eq_true hend, Bool.and_self, if_true]

/-- `AttemptStatusView` on an ended, already-inactive quiz: reports ended and
writes nothing (the deactivation is idempotent). -/
theorem attemptStatus_ended_inactive (st : St) (user quizId : String) (now : Int)
    (quiz : Quiz)
    (hq : getQuiz st quizId = some quiz) (hend : now > quiz.ends_on)
    (hact : quiz.is_active = false) :
    attemptStatus st user quizId now =
      (Except.ok { is_active := false, quiz_ended := true,
                   already_submitted := (match findAttempt st user quizId with
                                         | some a => a.is_submitted
                                         | none => false),
                   now := now, ends_on := quiz.ends_on },
       st) := by
  unfold attemptStatus
  rw [hq]
  simp only [hact, decide_eq_true hend, Bool.and_false, Bool.false_eq_true, if_false]

/-- Counterexample to claim C4 as stated: `startAttempt` is also an admission
check (it reports the quiz as ended), yet it performs no deactivation: on the
still-active, ended quiz "QC" it returns the `Ended` error and leaves the
state — in particular `is_active = true` — untouched. -/
theorem C4_counterexample :
    startAttempt stMain "alice" "QC" 20 "f1" = (Except.error Err.ended, stMain) ∧
    20 > quizC.ends_on ∧
    (getQuiz stMain "QC").map Quiz.is_active = some true := ⟨rfl, by decide, rfl⟩

/-- Claim C4 (amended): the lazy deactivation happens at `attemptStatus` checks
only.  At an `attemptStatus` check with `now > ends_on` the quiz is reported
ended and, if `is_active` was still true, it is flipped to false and persisted;
when it is already false the check reports ended and writes nothing
(idempotence).  `startAttempt` past `ends_on` never writes the quiz table, and
none of the four operations ever flips `is_active` back to true. -/
theorem C4_lazy_deactivation (st : St) (user quizId qid fid : String)
    (sel : Int) (now : Int) (quiz : Quiz)
    (hq : getQuiz st quizId = some quiz) (hend : now > quiz.ends_on)
    (hnd : (st.quizzes.map Quiz.quiz_id).Nodup) :
    (quiz.is_active = true →
      ∃ out st', attemptStatus st user quizId now = (Except.ok out, st') ∧
        out.quiz_ended = true ∧ out.is_active = false ∧
        getQuiz st' quizId = some { quiz with is_active := false } ∧
        st'.attempts = st.attempts)
    ∧ (quiz.is_active = false →
      ∃ out, attemptStatus st user quizId now = (Except.ok out, st) ∧
        out.quiz_ended = true ∧ out.is_active = false)
    ∧ (startAttempt st user quizId now fid).2.quizzes = st.quizzes
    ∧ activeMono st.quizzes (attemptStatus st user quizId now).2.quizzes
    ∧ activeMono st.quizzes (startAttempt st user quizId now fid).2.quizzes
    ∧ activeMono st.quizzes (saveAnswer st user quizId qid sel).2.quizzes
    ∧ activeMono st.quizzes (submitAttempt st user quizId now).2.quizzes := by
  refine ⟨?_, ?_, startAttempt_quizzes st user quizId now fid,
          attemptStatus_activeMono st user quizId now,
          startAttempt_activeMono st user quizId now fid,
          saveAnswer_activeMono st user quizId qid sel,
          submitAttempt_activeMono st user quizId now hnd⟩
  · intro hact
    rw [attemptStatus_ended_active st user quizId now quiz hq hend hact]
    refine ⟨_, _, rfl, rfl, rfl, ?_, rfl⟩
    exact getQuiz_updateQuiz hq rfl
  · intro hact
    rw [attemptStatus_ended_inactive st user quizId now quiz hq hend hact]
    exact ⟨_, rfl, rfl, rfl⟩

/-- Witness for C4 (amended) on quiz "QC" (active, past its window): the status
check reports ended, the saved row has `is_active = false`, and the attempt
table is untouched. -/
theorem C4_witness :
    ∃ out st', attemptStatus stMain "alice" "QC" 20 = (Except.ok out, st') ∧
      out.quiz_ended = true ∧ out.is_active = false ∧
      getQuiz st' "QC" = some { quizC with is_active := false } ∧
      st'.attempts = stMain.attempts :=
  (C4_lazy_deactivation stMain "alice" "QC" "q1" "f1" 3 20 quizC rfl (by decide)
    (by decide)).1 rfl

/-- Counterexample to claim C9 as stated: on quiz "QB", whose `ends_on` has
passed but whose `is_active` flag is already false, `startAttempt` fails with
the `Inactive` error, not with `Ended` (the inactivity check runs first). -/
theorem C9_counterexample :
    startAttempt stMain "alice" "QB" 20 "f1" = (Except.error Err.inactive, stMain) ∧
    20 > quizB.ends_on ∧
    Err.inactive ≠ Err.ended := ⟨rfl, by decide, by decide⟩

/-- Claim C9 (amended): on a quiz whose `ends_on` has passed, `startAttempt`
always fails and creates no attempt (the state is returned unchanged); the
error is `Ended` when the quiz is still active and `Inactive` when the flag is
already false (the inactivity check precedes the window check). -/
theorem C9_start_after_end (st : St) (user quizId fid : String) (now : Int)
    (quiz : Quiz)
    (hq : getQuiz st quizId = some quiz) (hend : now > quiz.ends_on) :
    (quiz.is_active = true →
      startAttempt st user quizId now fid = (Except.error Err.ended, st))
    ∧ (quiz.is_active = false →
      startAttempt st user quizId now fid = (Except.error Err.inactive, st)) := by
  constructor
  · intro hact
    unfold startAttempt
    rw [hq]
    simp only [hact, Bool.not_true, Bool.false_eq_true, if_false]
    rw [if_pos hend]
  · intro hact
    unfold startAttempt
    rw [hq]
    simp only [hact, Bool.not_false, if_true]

/-- Witness for C9 (amended): the still-active ended quiz "QC" yields `Ended`;
the inactive ended quiz "QB" yields `Inactive`; both leave the state — hence
the attempt set — unchanged. -/
theorem C9_witness :
    startAttempt stMain "bob" "QC" 20 "f2" = (Except.error Err.ended, stMain) ∧
    startAttempt stMain "bob" "QB" 20 "f2" = (Except.error Err.inactive, stMain) :=
  ⟨(C9_start_after_end stMain "bob" "QC" "f2" 20 quizC rfl (by decide)).1 rfl,
   (C9_start_after_end stMain "bob" "QB" "f2" 20 quizB rfl (by decide)).2 rfl⟩

/-- Claim C6: `saveAnswer` rejects a selected option outside 1..4 (before even
looking at the quiz); with a valid option it fails with `AttemptNotFound` when
no attempt exists for the (participant, quiz) pair, with `AlreadySubmitted`
when the attempt is submitted, and otherwise upserts the answer for
`question_id` into the response map — overwriting any prior value for that
question, leaving every other entry unchanged, and never checking that
`question_id` belongs to the quiz (no such hypothesis is needed); the quiz
table is untouched. -/
theorem C6_saveAnswer (st : St) (user quizId qid : String) (sel : Int) :
    ((sel < 1 ∨ 4 < sel) →
      saveAnswer st user quizId qid sel = (Except.error Err.invalidOption, st))
    ∧ (1 ≤ sel → sel ≤ 4 → ∀ quiz, getQuiz st quizId = some quiz →
        findAttempt st user quizId = none →
        saveAnswer st user quizId qid sel = (Except.error Err.attemptNotFound, st))
    ∧ (1 ≤ sel → sel ≤ 4 → ∀ quiz a, getQuiz st quizId = some quiz →
        findAttempt st user quizId = some a → a.is_submitted = true →
        saveAnswer st user quizId qid sel = (Except.error Err.alreadySubmitted, st))
    ∧ (1 ≤ sel → sel ≤ 4 → ∀ quiz a, getQuiz st quizId = some quiz →
        findAttempt st user quizId = some a → a.is_submitted = false →
        saveAnswer st user quizId qid sel =
          (Except.ok (), updateAttempt st a.attempt_id
            { a with responses := upsert a.responses qid (Val.intV sel) }) ∧
        findAttempt (saveAnswer st user quizId qid sel).2 user quizId =
          some { a with responses := upsert a.responses qid (Val.intV sel) } ∧
        lookupResp (upsert a.responses qid (Val.intV sel)) qid =
          some (Val.intV sel) ∧
        (∀ k, k ≠ qid →
          lookupResp (upsert a.responses qid (Val.intV sel)) k =
            lookupResp a.responses k) ∧
        (saveAnswer st user quizId qid sel).2.quizzes = st.quizzes) := by
  refine ⟨?_, ?_, ?_, ?_⟩
  · intro hbad
    unfold saveAnswer
    rcases hbad with h | h
    · simp [h]
    · simp [h]
  · intro h1 h4 quiz hq ha
    unfold saveAnswer
    rw [hq, ha]
    have hcond : (decide (sel < 1) || decide (4 < sel)) = false := by
      simp only [Bool.or_eq_false_iff, decide_eq_false_iff_not]
      omega
    simp only [hcond, Bool.false_eq_true, if_false]
  · intro h1 h4 quiz a hq ha hs
    unfold saveAnswer
    rw [hq, ha]
    have hcond : (decide (sel < 1) || decide (4 < sel)) = false := by
      simp only [Bool.or_eq_false_iff, decide_eq_false_iff_not]
      omega
    simp only [hcond, Bool.false_eq_true, if_false, hs, if_true]
  · intro h1 h4 quiz a hq ha hs
    obtain ⟨hu, hz⟩ := findAttempt_fields ha
    have hrun : saveAnswer st user quizId qid sel =
        (Except.ok (), updateAttempt st a.attempt_id
          { a with responses := upsert a.responses qid (Val.intV sel) }) := by
      unfold saveAnswer
      rw [hq, ha]
      have hcond : (decide (sel < 1) || decide (4 < sel)) = false := by
        simp only [Bool.or_eq_false_iff, decide_eq_false_iff_not]
        omega
      simp only [hcond, Bool.false_eq_true, if_false, hs]
    refine ⟨hrun, ?_, lookupResp_upsert_self _ _ _,
            fun k hk => lookupResp_upsert_other _ _ _ _ hk, ?_⟩
    · rw [hrun]
      exact findAttempt_updateAttempt ha hu hz
    · rw [hrun]
      rfl

/-- Witness for C6: a selected option of 0 is rejected; saving option 4 for
"q3" — a question id that belongs to the other quiz "QB", showing the absence
of any membership check — succeeds, the new entry reads back, and the prior
entry for "q1" is untouched. -/
theorem C6_witness :
    saveAnswer stMain "alice" "QA" "q3" 0 = (Except.error Err.invalidOption, stMain) ∧
    saveAnswer stMain "alice" "QA" "q3" 4 =
      (Except.ok (), updateAttempt stMain attOpen.attempt_id
        { attOpen with responses := upsert attOpen.responses "q3" (Val.intV 4) }) ∧
    lookupResp (upsert attOpen.responses "q3" (Val.intV 4)) "q3" =
      some (Val.intV 4) ∧
    lookupResp (upsert attOpen.responses "q3" (Val.intV 4)) "q1" =
      lookupResp attOpen.responses "q1" := by
  have h0 := (C6_saveAnswer stMain "alice" "QA" "q3" 0).1 (Or.inl (by decide))
  have h4 := (C6_saveAnswer stMain "alice" "QA" "q3" 4).2.2.2 (by decide) (by decide)
    quizA attOpen rfl rfl rfl
  exact ⟨h0, h4.1, h4.2.2.1, h4.2.2.2.1 "q1" (by decide)⟩

/-- Claim C7: each operation preserves the invariant that at most one attempt
row exists per (participant, quiz) pair (the only creation path,
`startAttempt`, creates only when `filter(...).first()` found nothing, under a
fresh primary key), and `startAttempt` is idempotent: when a not-yet-submitted
attempt already exists for an admitted quiz, calling it again returns that very
attempt — same id, same responses, same `started_at` — and changes nothing. -/
theorem C7_at_most_one_attempt (st : St) (u q fid qid : String)
    (now : Int) (sel : Int) :
    (wfAttempts st.attempts → fid ∉ st.attempts.map Attempt.attempt_id →
      wfAttempts (startAttempt st u q now fid).2.attempts)
    ∧ (wfAttempts st.attempts → wfAttempts (saveAnswer st u q qid sel).2.attempts)
    ∧ (wfAttempts st.attempts → wfAttempts (submitAttempt st u q now).2.attempts)
    ∧ (wfAttempts st.attempts → wfAttempts (attemptStatus st u q now).2.attempts)
    ∧ (∀ quiz a, getQuiz st q = some quiz → quiz.is_active = true →
        ¬(now > quiz.ends_on) → findAttempt st u q = some a →
        a.is_submitted = false →
        startAttempt st u q now fid = (Except.ok a, st)) := by
  refine ⟨?_, ?_, ?_, ?_, ?_⟩
  · intro hwf hfresh
    unfold startAttempt
    cases hq : getQuiz st q with
    | none => exact hwf
    | some quiz =>
      simp only
      split
      · exact hwf
      · split
        · exact hwf
        · cases ha : findAttempt st u q with
          | some a =>
            simp only
            split
            · exact hwf
            · exact hwf
          | none =>
            simp only
            exact wfAttempts_append_new st.attempts _ hfresh ha hwf
  · intro hwf
    unfold saveAnswer
    split
    · exact hwf
    · cases hq : getQuiz st q with
      | none => exact hwf
      | some quiz =>
        simp only
        cases ha : findAttempt st u q with
        | none => exact hwf
        | some a =>
          simp only
          split
          · exact hwf
          · simp only [updateAttempt]
            exact wfAttempts_map_replace st.attempts a _
              (List.mem_of_find?_eq_some ha) rfl rfl rfl hwf
  · intro hwf
    unfold submitAttempt
    cases hq : getQuiz st q with
    | none => exact hwf
    | some quiz =>
      simp only
      cases ha : findAttempt st u q with
      | none => exact hwf
      | some a =>
        simp only
        split
        · exact hwf
        · cases hg : Attempt.grade st.questions a with
          | error e => exact hwf
          | ok p =>
            obtain ⟨c, a1⟩ := p
            have ha1 : a1 = { a with score := some ((c : Int)) } := by
              unfold Attempt.grade at hg
              cases hgc : gradeCount st.questions a.quiz a.responses with
              | error e => rw [hgc] at hg; exact absurd hg (by simp)
              | ok c0 =>
                rw [hgc] at hg
                simp only [Except.ok.injEq, Prod.mk.injEq] at hg
                rw [← hg.2]
                rw [hg.1]
            simp only [updateQuiz, updateAttempt]
            refine wfAttempts_map_replace st.attempts a _
              (List.mem_of_find?_eq_some ha) ?_ ?_ ?_ hwf
            · rw [ha1]
            · rw [ha1]
            · rw [ha1]
  · intro hwf
    rw [attemptStatus_attempts]
    exact hwf
  · intro quiz a hq hact hnow ha hs
    unfold startAttempt
    rw [hq, ha]
    simp only [hact, Bool.not_true, Bool.false_eq_true, if_false, hs, if_true]
    rw [if_neg hnow]

/-- Witness for C7: restarting Alice's open attempt on "QA" returns the very
same attempt and state; a fresh start by "dora" preserves the invariants. -/
theorem C7_witness :
    startAttempt stMain "alice" "QA" 5 "f1" = (Except.ok attOpen, stMain) ∧
    wfAttempts (startAttempt stMain "dora" "QA" 5 "f9").2.attempts := by
  have h := C7_at_most_one_attempt stMain "alice" "QA" "f1" "q1" 5 3
  have h2 := C7_at_most_one_attempt stMain "dora" "QA" "f9" "q1" 5 3
  refine ⟨h.2.2.2.2 quizA attOpen rfl rfl (by decide) rfl rfl, ?_⟩
  refine h2.1 ⟨by decide, ?_⟩ (by decide)
  unfold atMostOnePerPair
  decide

/-- Claim C8: in the responses view, a caller who is not the quiz creator and
passes a target user id fails with `Forbidden` (whoever the target is); a
non-creator fetching their own breakdown fails with `NotSubmitted` (HTTP 400)
when their attempt exists but is open, and with the attempt-not-found 404 when
they have no attempt. -/
theorem C8_listResponses (st : St) (caller quizId uid : String) (quiz : Quiz)
    (hq : getQuiz st quizId = some quiz) (hnc : quiz.creator ≠ caller) :
    (listResponses st caller quizId (some uid) = Except.error Err.forbidden)
    ∧ (∀ a, findAttempt st caller quizId = some a → a.is_submitted = false →
        listResponses st caller quizId none = Except.error Err.notSubmitted)
    ∧ (findAttempt st caller quizId = none →
        listResponses st caller quizId none = Except.error Err.attemptNotFound404) := by
  have hbne : (quiz.creator != caller) = true := by
    simp only [bne_iff_ne, ne_eq]
    exact hnc
  have hbeq : (quiz.creator == caller) = false := by
    simp only [beq_eq_false_iff_ne, ne_eq]
    exact hnc
  refine ⟨?_, ?_, ?_⟩
  · unfold listResponses
    rw [hq]
    simp only [hbne, if_true]
  · intro a ha hs
    unfold listResponses fetchBreakdown
    rw [hq]
    simp only [hbeq, Bool.false_eq_true, if_false, ha, hs, Bool.not_false, if_true]
  · intro ha
    unfold listResponses fetchBreakdown
    rw [hq]
    simp only [hbeq, Bool.false_eq_true, if_false, ha]

/-- Witness for C8: Alice (not the creator of "QA") is forbidden from Bob's
data; her own breakdown fails with `NotSubmitted` while her attempt is open;
Dora, with no attempt, gets the 404. -/
theorem C8_witness :
    listResponses stMain "alice" "QA" (some "bob") = Except.error Err.forbidden ∧
    listResponses stMain "alice" "QA" none = Except.error Err.notSubmitted ∧
    listResponses stMain "dora" "QA" none = Except.error Err.attemptNotFound404 := by
  have h1 := C8_listResponses stMain "alice" "QA" "bob" quizA rfl (by decide)
  have h2 := C8_listResponses stMain "dora" "QA" "x" quizA rfl (by decide)
  exact ⟨h1.1, h1.2.1 attOpen rfl rfl, h2.2.2 rfl⟩
